import Mathlib

/-!
Verification of the grapheme-cluster and sentence segmenters of the
unicode-segmentation crate (src/grapheme.rs, src/sentence.rs).

Texts are modelled as lists of Unicode scalar values (`List Char`); byte
offsets are computed from the UTF-8 width of each scalar, exactly as the
Rust code computes them with `len_utf8` and byte slicing.  The generated
character-property table is out of scope for the crate (an opaque function
`grapheme_category`), so every definition is parameterised by a category
function `gcat : Char → GraphemeCat` (resp. `scat : Char → SentenceCat`).
Fallible operations (slicing at a non-boundary, `unwrap`, `panic!`,
`unreachable!`, failed `assert!`) are modelled by `Option` or by the
explicit `COut.panicked` outcome.
-/

/-- UTF-8 width in bytes of a scalar value, as Rust's `char::len_utf8`. -/
def utf8Len (c : Char) : Nat :=
  if c.toNat < 0x80 then 1
  else if c.toNat < 0x800 then 2
  else if c.toNat < 0x10000 then 3
  else 4

/-- The UTF-8 encoding of one scalar value, as a list of byte values. -/
def utf8EncodeChar (c : Char) : List Nat :=
  let v := c.toNat
  if v < 0x80 then [v]
  else if v < 0x800 then [0xC0 + v / 64, 0x80 + v % 64]
  else if v < 0x10000 then [0xE0 + v / 4096, 0x80 + v / 64 % 64, 0x80 + v % 64]
  else [0xF0 + v / 262144, 0x80 + v / 4096 % 64, 0x80 + v / 64 % 64, 0x80 + v % 64]

/-- Total UTF-8 byte length of a text, as Rust's `str::len`. -/
def byteLen (s : List Char) : Nat :=
  match s with
  | [] => 0
  | c :: rest => utf8Len c + byteLen rest

/-- Byte slice `s[n..]`; `none` models the panic on a non-boundary index. -/
def byteDrop (s : List Char) (n : Nat) : Option (List Char) :=
  if n = 0 then some s
  else match s with
    | [] => none
    | c :: rest => if utf8Len c ≤ n then byteDrop rest (n - utf8Len c) else none

/-- Byte slice `s[..n]`; `none` models the panic on a non-boundary index. -/
def byteTake (s : List Char) (n : Nat) : Option (List Char) :=
  if n = 0 then some []
  else match s with
    | [] => none
    | c :: rest =>
      if utf8Len c ≤ n then (byteTake rest (n - utf8Len c)).map (fun l => c :: l)
      else none

/-- The byte at index `i` of the UTF-8 encoding of `s` (Rust `as_bytes()[i]`). -/
def byteAt (s : List Char) (i : Nat) : Option Nat :=
  (s.flatMap utf8EncodeChar).get? i

/-- Grapheme categories used by src/grapheme.rs (`tables::grapheme::GraphemeCat`). -/
inductive GraphemeCat where
  | GC_Any
  | GC_Control
  | GC_Extend
  | GC_ZWJ
  | GC_Regional_Indicator
  | GC_Prepend
  | GC_SpacingMark
  | GC_L
  | GC_V
  | GC_T
  | GC_LV
  | GC_LVT
  | GC_E_Base
  | GC_E_Modifier
  | GC_E_Base_GAZ
  | GC_Glue_After_Zwj
  deriving DecidableEq, Repr

/-- Outcomes of the pair classifier (`enum PairResult` in src/grapheme.rs). -/
inductive PairResult where
  | NotBreak
  | Break
  | Extended
  | CheckCrlf
  | Regional
  | Emoji
  deriving DecidableEq, Repr

/-- `check_pair(before, after)` from src/grapheme.rs lines 480-508, with the
match arms in source order (first match wins). -/
def checkPair (before after : GraphemeCat) : PairResult :=
  match before, after with
  | .GC_Control, .GC_Control => .CheckCrlf  -- GB3
  | .GC_Control, _ => .Break  -- GB4
  | _, .GC_Control => .Break  -- GB5
  | .GC_L, .GC_L => .NotBreak  -- GB6
  | .GC_L, .GC_V => .NotBreak  -- GB6
  | .GC_L, .GC_LV => .NotBreak  -- GB6
  | .GC_L, .GC_LVT => .NotBreak  -- GB6
  | .GC_LV, .GC_V => .NotBreak  -- GB7
  | .GC_LV, .GC_T => .NotBreak  -- GB7
  | .GC_V, .GC_V => .NotBreak  -- GB7
  | .GC_V, .GC_T => .NotBreak  -- GB7
  | .GC_LVT, .GC_T => .NotBreak  -- GB8
  | .GC_T, .GC_T => .NotBreak  -- GB8
  | _, .GC_Extend => .NotBreak  -- GB9
  | _, .GC_ZWJ => .NotBreak  -- GB9
  | _, .GC_SpacingMark => .Extended  -- GB9a
  | .GC_Prepend, _ => .Extended  -- GB9a
  | .GC_E_Base, .GC_E_Modifier => .NotBreak  -- GB10
  | .GC_E_Base_GAZ, .GC_E_Modifier => .NotBreak  -- GB10
  | .GC_Extend, .GC_E_Modifier => .Emoji  -- GB10
  | .GC_ZWJ, .GC_Glue_After_Zwj => .NotBreak  -- GB11
  | .GC_Regional_Indicator, .GC_Regional_Indicator => .Regional  -- GB12, GB13
  | _, _ => .Break  -- GB999

/-- `enum GraphemeCursorState` from src/grapheme.rs. -/
inductive GraphemeCursorState where
  | Unknown
  | NotBreak
  | Break
  | CheckCrlf
  | Regional
  | Emoji
  deriving DecidableEq, Repr

/-- `enum GraphemeIncomplete` from src/grapheme.rs. -/
inductive GraphemeIncomplete where
  | PreContext (n : Nat)
  | PrevChunk
  | NextChunk
  | InvalidOffset
  deriving DecidableEq, Repr

/-- Result of a fallible cursor operation: an ordinary `Ok` value, an
`Err(GraphemeIncomplete)`, or a Rust panic / `unreachable!` / failed assert. -/
inductive COut (α : Type) where
  | ok (a : α)
  | err (e : GraphemeIncomplete)
  | panicked
  deriving DecidableEq, Repr

/-- `struct GraphemeCursor` from src/grapheme.rs (field names as in source). -/
structure GraphemeCursor where
  offset : Nat
  len : Nat
  is_extended : Bool
  state : GraphemeCursorState
  cat : Option GraphemeCat
  catb : Option GraphemeCat
  pre_context_offset : Option Nat
  ris_count : Option Nat
  deriving DecidableEq, Repr

/-- `GraphemeCursor::new`. -/
def GraphemeCursor.new (offset len : Nat) (is_extended : Bool) : GraphemeCursor :=
  { offset := offset
    len := len
    is_extended := is_extended
    state := if offset = 0 ∨ offset = len then .Break else .Unknown
    cat := none
    catb := none
    pre_context_offset := none
    ris_count := none }

/-- `GraphemeCursor::set_cursor`.  Note: the source only updates `offset` and
`state`, and only when the new offset differs from the current one. -/
def GraphemeCursor.set_cursor (c : GraphemeCursor) (offset : Nat) : GraphemeCursor :=
  if offset ≠ c.offset then
    { c with
      offset := offset
      state := if offset = 0 ∨ offset = c.len then .Break else .Unknown }
  else c

/-- `GraphemeCursor::decide`. -/
def GraphemeCursor.decide (c : GraphemeCursor) (is_break : Bool) : GraphemeCursor :=
  { c with state := if is_break then .Break else .NotBreak }

/-- `GraphemeCursor::decision`. -/
def GraphemeCursor.decision (c : GraphemeCursor) (is_break : Bool) :
    COut Bool × GraphemeCursor :=
  (.ok is_break, c.decide is_break)

/-- `GraphemeCursor::is_boundary_result`; the final `unreachable!` is the
`panicked` outcome. -/
def GraphemeCursor.is_boundary_result (c : GraphemeCursor) : COut Bool × GraphemeCursor :=
  if c.state = .Break then (.ok true, c)
  else if c.state = .NotBreak then (.ok false, c)
  else match c.pre_context_offset with
    | some p => (.err (.PreContext p), c)
    | none => (.panicked, c)

/-- The backwards scan of `GraphemeCursor::handle_regional`: starting from
`ris` confirmed Regional Indicators, walk the reversed chunk; the Bool result
is true when the scan exited on a non-RI character. -/
def handleRegionalGo (gcat : Char → GraphemeCat) (ris : Nat) :
    List Char → Nat × Bool
  | [] => (ris, false)
  | c :: rest =>
    if gcat c ≠ .GC_Regional_Indicator then (ris, true)
    else handleRegionalGo gcat (ris + 1) rest

/-- `GraphemeCursor::handle_regional`. -/
def GraphemeCursor.handle_regional (gcat : Char → GraphemeCat) (c : GraphemeCursor)
    (chunk : List Char) (chunk_start : Nat) : GraphemeCursor :=
  let r := handleRegionalGo gcat (c.ris_count.getD 0) chunk.reverse
  if r.2 then
    ({ c with ris_count := some r.1 }).decide (r.1 % 2 = 0)
  else if chunk_start = 0 then
    ({ c with ris_count := some r.1 }).decide (r.1 % 2 = 0)
  else
    { c with ris_count := some r.1, pre_context_offset := some chunk_start }

/-- The backwards scan of `GraphemeCursor::handle_emoji`: `some false` means
decide(false), `some true` means decide(true), `none` means the chunk was
exhausted. -/
def handleEmojiGo (gcat : Char → GraphemeCat) : List Char → Option Bool
  | [] => none
  | c :: rest =>
    match gcat c with
    | .GC_Extend => handleEmojiGo gcat rest
    | .GC_E_Base => some false
    | .GC_E_Base_GAZ => some false
    | _ => some true

/-- `GraphemeCursor::handle_emoji`. -/
def GraphemeCursor.handle_emoji (gcat : Char → GraphemeCat) (c : GraphemeCursor)
    (chunk : List Char) (chunk_start : Nat) : GraphemeCursor :=
  match handleEmojiGo gcat chunk.reverse with
  | some b => c.decide b
  | none =>
    if chunk_start = 0 then c.decide true
    else { c with pre_context_offset := some chunk_start }

/-- `GraphemeCursor::is_boundary` (src/grapheme.rs lines 629-692), translated
clause by clause; `chunk` is the chunk text and `chunk_start` its byte offset
in the full text. -/
def GraphemeCursor.is_boundary (gcat : Char → GraphemeCat) (c : GraphemeCursor)
    (chunk : List Char) (chunk_start : Nat) : COut Bool × GraphemeCursor :=
  if c.state = .Break then (.ok true, c)
  else if c.state = .NotBreak then (.ok false, c)
  else if c.offset < chunk_start ∨ c.offset ≥ chunk_start + byteLen chunk then
    (.err .InvalidOffset, c)
  else match c.pre_context_offset with
  | some p => (.err (.PreContext p), c)
  | none =>
    let offset_in_chunk := c.offset - chunk_start
    -- populate catb from the code point at the cursor
    match
      (match c.catb with
       | some cb => some cb
       | none =>
         match byteDrop chunk offset_in_chunk with
         | some (ch :: _) => some (gcat ch)
         | _ => none) with
    | none => (.panicked, c)  -- unwrap of chars().next()
    | some cb =>
      let c := { c with catb := some cb }
      if c.offset = chunk_start then
        -- no in-chunk pre-context: tag state from catb, request pre-context
        let st :=
          match cb with
          | .GC_Control =>
            if byteAt chunk offset_in_chunk = some 10 then
              GraphemeCursorState.CheckCrlf
            else c.state
          | .GC_Regional_Indicator => GraphemeCursorState.Regional
          | .GC_E_Modifier => GraphemeCursorState.Emoji
          | _ => c.state
        (.err (.PreContext chunk_start),
         { c with state := st, pre_context_offset := some chunk_start })
      else
        -- populate cat from the code point ending at the cursor
        match
          (match c.cat with
           | some ca => some ca
           | none =>
             match byteTake chunk offset_in_chunk with
             | some l =>
               match l.getLast? with
               | some ch => some (gcat ch)
               | none => none
             | none => none) with
        | none => (.panicked, c)  -- unwrap of chars().rev().next()
        | some ca =>
          let c := { c with cat := some ca }
          match checkPair ca cb with
          | .NotBreak => c.decision false
          | .Break => c.decision true
          | .Extended => c.decision c.is_extended
          | .CheckCrlf =>
            if byteAt chunk offset_in_chunk ≠ some 10 then c.decision true
            else if c.offset > chunk_start then
              match byteAt chunk (offset_in_chunk - 1) with
              | some b => c.decision (b ≠ 13)
              | none => (.panicked, c)
            else
              (.err (.PreContext chunk_start), { c with state := .CheckCrlf })
          | .Regional =>
            match byteTake chunk offset_in_chunk with
            | none => (.panicked, c)
            | some l =>
              (c.handle_regional gcat l chunk_start).is_boundary_result
          | .Emoji =>
            match byteTake chunk offset_in_chunk with
            | none => (.panicked, c)
            | some l =>
              (c.handle_emoji gcat l chunk_start).is_boundary_result

/-- `GraphemeCursor::provide_context` (src/grapheme.rs lines 541-561).  The
`panicked` outcomes are the failed `assert!`, the `unwrap` on an empty chunk,
and the `panic!("invalid state")` in the final match. -/
def GraphemeCursor.provide_context (gcat : Char → GraphemeCat) (c : GraphemeCursor)
    (chunk : List Char) (chunk_start : Nat) : COut Unit × GraphemeCursor :=
  match c.pre_context_offset with
  | none => (.panicked, c)  -- unwrap in the assert
  | some p =>
    if chunk_start + byteLen chunk ≠ p then (.panicked, c)  -- assert! failure
    else
      let c := { c with pre_context_offset := none }
      let gb9b :=
        if c.is_extended ∧ chunk_start + byteLen chunk = c.offset then
          match chunk.getLast? with
          | none => none  -- unwrap of chars().rev().next() panics
          | some ch => some (gcat ch = .GC_Prepend)
        else some false
      match gb9b with
      | none => (.panicked, c)
      | some true => (.ok (), c.decide false)  -- GB9b
      | some false =>
        match c.state with
        | .CheckCrlf =>
          match byteAt chunk (byteLen chunk - 1) with
          | none => (.panicked, c)  -- index out of bounds on empty chunk
          | some b => (.ok (), c.decide (b ≠ 13))
        | .Regional => (.ok (), c.handle_regional gcat chunk chunk_start)
        | .Emoji => (.ok (), c.handle_emoji gcat chunk chunk_start)
        | _ => (.panicked, c)  -- panic!("invalid state")

/-- The loop body of `GraphemeCursor::next_boundary`, with fuel standing in
for the unbounded Rust `loop`; running out of fuel is not a behaviour of the
source and is mapped to `panicked` (never reached with adequate fuel). -/
def nextBoundaryLoop (gcat : Char → GraphemeCat) :
    Nat → GraphemeCursor → List Char → Nat → COut (Option Nat) × GraphemeCursor
  | 0, c, _, _ => (.panicked, c)
  | fuel + 1, c, chunk, chunk_start =>
    match byteDrop chunk (c.offset - chunk_start) with
    | none => (.panicked, c)
    | some [] => (.panicked, c)  -- unwrap of chars().next()
    | some (ch :: _) =>
      let c := { c with offset := c.offset + utf8Len ch }
      let c := { c with cat := c.catb, catb := none }  -- self.cat = self.catb.take()
      let c := { c with state := .Unknown }
      let c :=
        match c.ris_count, c.cat with
        | some r, some cat =>
          { c with
            ris_count := some (if cat = .GC_Regional_Indicator then r + 1 else 0) }
        | _, _ => c
      if c.offset = c.len then
        let c := c.decide true
        match c.is_boundary gcat chunk chunk_start with
        | (.ok true, c') => (.ok (some c'.offset), c')
        | (.ok false, c') => nextBoundaryLoop gcat fuel c' chunk chunk_start
        | (.err e, c') => (.err e, c')
        | (.panicked, c') => (.panicked, c')
      else if c.offset ≥ chunk_start + byteLen chunk then
        (.err .NextChunk, c)
      else
        match c.is_boundary gcat chunk chunk_start with
        | (.ok true, c') => (.ok (some c'.offset), c')
        | (.ok false, c') => nextBoundaryLoop gcat fuel c' chunk chunk_start
        | (.err e, c') => (.err e, c')
        | (.panicked, c') => (.panicked, c')

/-- `GraphemeCursor::next_boundary` (src/grapheme.rs lines 694-719). -/
def GraphemeCursor.next_boundary (gcat : Char → GraphemeCat) (fuel : Nat)
    (c : GraphemeCursor) (chunk : List Char) (chunk_start : Nat) :
    COut (Option Nat) × GraphemeCursor :=
  if c.offset = c.len then (.ok none, c)
  else nextBoundaryLoop gcat fuel c chunk chunk_start

/-- The loop body of `GraphemeCursor::prev_boundary`, fuelled like
`nextBoundaryLoop`. -/
def prevBoundaryLoop (gcat : Char → GraphemeCat) :
    Nat → GraphemeCursor → List Char → Nat → COut (Option Nat) × GraphemeCursor
  | 0, c, _, _ => (.panicked, c)
  | fuel + 1, c, chunk, chunk_start =>
    if c.offset = chunk_start then (.err .PrevChunk, c)
    else
      match (byteTake chunk (c.offset - chunk_start)).bind List.getLast? with
      | none => (.panicked, c)  -- unwrap of chars().rev().next()
      | some ch =>
        let c := { c with offset := c.offset - utf8Len ch }
        let c := { c with catb := c.cat, cat := none }  -- self.catb = self.cat.take()
        let c := { c with state := .Unknown }
        let c :=
          match c.ris_count with
          | some r => { c with ris_count := if r > 0 then some (r - 1) else none }
          | none => c
        let c := if c.offset = 0 then c.decide true else c
        match c.is_boundary gcat chunk chunk_start with
        | (.ok true, c') => (.ok (some c'.offset), c')
        | (.ok false, c') => prevBoundaryLoop gcat fuel c' chunk chunk_start
        | (.err e, c') => (.err e, c')
        | (.panicked, c') => (.panicked, c')

/-- `GraphemeCursor::prev_boundary` (src/grapheme.rs lines 721-743). -/
def GraphemeCursor.prev_boundary (gcat : Char → GraphemeCat) (fuel : Nat)
    (c : GraphemeCursor) (chunk : List Char) (chunk_start : Nat) :
    COut (Option Nat) × GraphemeCursor :=
  if c.offset = 0 then (.ok none, c)
  else prevBoundaryLoop gcat fuel c chunk chunk_start

/-- A sample category assignment for concrete test texts (stands in for the
generated table, which is an external collaborator). -/
def demoGcat (c : Char) : GraphemeCat :=
  if c = '\r' ∨ c = '\n' then .GC_Control
  else if c = 'e' then .GC_Extend
  else if c = 'z' then .GC_ZWJ
  else if c = 'R' then .GC_Regional_Indicator
  else if c = 'p' then .GC_Prepend
  else if c = 's' then .GC_SpacingMark
  else if c = 'L' then .GC_L
  else if c = 'V' then .GC_V
  else if c = 'T' then .GC_T
  else if c = 'b' then .GC_E_Base
  else if c = 'm' then .GC_E_Modifier
  else if c = 'g' then .GC_E_Base_GAZ
  else if c = 'w' then .GC_Glue_After_Zwj
  else .GC_Any

/-- The state machine of the whole-text grapheme iterator
(`enum GraphemeState` in src/grapheme.rs; the source's extra `Unknown`
variant is `unreachable!()` and therefore omitted). -/
inductive GraphemeState where
  | Start
  | FindExtend
  | HangulL
  | HangulLV
  | HangulLVT
  | Prepend
  | Regional
  | Emoji
  | Zwj
  deriving DecidableEq, Repr

/-- `struct Graphemes` from src/grapheme.rs (field names as in source). -/
structure Graphemes where
  string : List Char
  extended : Bool
  cat : Option GraphemeCat
  catb : Option GraphemeCat
  regional_count_back : Option Nat
  deriving DecidableEq, Repr

/-- `new_graphemes` from src/grapheme.rs. -/
def new_graphemes (s : List Char) (is_extended : Bool) : Graphemes :=
  { string := s
    extended := is_extended
    cat := none
    catb := none
    regional_count_back := none }

/-- `Graphemes::size_hint`. -/
def Graphemes.size_hint (g : Graphemes) : Nat × Option Nat :=
  (min (byteLen g.string) 1, some (byteLen g.string))

/-- The `for (curr, ch) in self.string.char_indices()` loop of
`Graphemes::next` (src/grapheme.rs lines 133-232).  `acc` is the part of the
cluster consumed so far, `cache` the `self.cat` value (consulted for the
first character only, as `self.cat.take()` empties it).  Returns the cluster,
the rest of the string and the category to cache (`Some(cat)` exactly when
the loop broke with `take_curr == false`). -/
def gFwdGo (gcat : Char → GraphemeCat) (ext : Bool) :
    GraphemeState → Option GraphemeCat → List Char → List Char →
    List Char × List Char × Option GraphemeCat
  | _, _, acc, [] => (acc, [], none)  -- loop exhausted: take_curr is still true
  | state, cache, acc, ch :: rest =>
    let cat := cache.getD (gcat ch)
    if state = .Emoji ∧ cat = .GC_Extend then
      gFwdGo gcat ext .Emoji none (acc ++ [ch]) rest  -- rule GB10
    else if cat = .GC_Extend then
      gFwdGo gcat ext .FindExtend none (acc ++ [ch]) rest  -- rule GB9
    else if cat = .GC_SpacingMark ∧ ext then
      gFwdGo gcat ext .FindExtend none (acc ++ [ch]) rest  -- rule GB9a
    else if cat = .GC_ZWJ then
      gFwdGo gcat ext .Zwj none (acc ++ [ch]) rest  -- rule GB9/GB11
    else
      match state with
      | .Start =>
        if ch = '\r' then
          match rest with  -- rule GB3: absorb a following LF
          | '\n' :: rest2 => (acc ++ [ch, '\n'], rest2, none)
          | _ => (acc ++ [ch], rest, none)  -- rule GB4
        else
          match cat with
          | .GC_Control => (acc ++ [ch], rest, none)  -- rule GB5, take_curr = true
          | .GC_L => gFwdGo gcat ext .HangulL none (acc ++ [ch]) rest
          | .GC_LV => gFwdGo gcat ext .HangulLV none (acc ++ [ch]) rest
          | .GC_V => gFwdGo gcat ext .HangulLV none (acc ++ [ch]) rest
          | .GC_LVT => gFwdGo gcat ext .HangulLVT none (acc ++ [ch]) rest
          | .GC_T => gFwdGo gcat ext .HangulLVT none (acc ++ [ch]) rest
          | .GC_Prepend =>
            if ext then gFwdGo gcat ext .Prepend none (acc ++ [ch]) rest
            else gFwdGo gcat ext .FindExtend none (acc ++ [ch]) rest
          | .GC_Regional_Indicator => gFwdGo gcat ext .Regional none (acc ++ [ch]) rest
          | .GC_E_Base => gFwdGo gcat ext .Emoji none (acc ++ [ch]) rest
          | .GC_E_Base_GAZ => gFwdGo gcat ext .Emoji none (acc ++ [ch]) rest
          | _ => gFwdGo gcat ext .FindExtend none (acc ++ [ch]) rest
      | .Prepend =>
        match cat with
        | .GC_Control => (acc, ch :: rest, some cat)  -- rule GB5, take_curr = false
        | .GC_L => gFwdGo gcat ext .HangulL none (acc ++ [ch]) rest
        | .GC_LV => gFwdGo gcat ext .HangulLV none (acc ++ [ch]) rest
        | .GC_V => gFwdGo gcat ext .HangulLV none (acc ++ [ch]) rest
        | .GC_LVT => gFwdGo gcat ext .HangulLVT none (acc ++ [ch]) rest
        | .GC_T => gFwdGo gcat ext .HangulLVT none (acc ++ [ch]) rest
        | .GC_Prepend =>
          if ext then gFwdGo gcat ext .Prepend none (acc ++ [ch]) rest
          else gFwdGo gcat ext .FindExtend none (acc ++ [ch]) rest
        | .GC_Regional_Indicator => gFwdGo gcat ext .Regional none (acc ++ [ch]) rest
        | .GC_E_Base => gFwdGo gcat ext .Emoji none (acc ++ [ch]) rest
        | .GC_E_Base_GAZ => gFwdGo gcat ext .Emoji none (acc ++ [ch]) rest
        | _ => gFwdGo gcat ext .FindExtend none (acc ++ [ch]) rest
      | .FindExtend => (acc, ch :: rest, some cat)
      | .HangulL =>
        match cat with  -- rule GB6
        | .GC_L => gFwdGo gcat ext .HangulL none (acc ++ [ch]) rest
        | .GC_LV => gFwdGo gcat ext .HangulLV none (acc ++ [ch]) rest
        | .GC_V => gFwdGo gcat ext .HangulLV none (acc ++ [ch]) rest
        | .GC_LVT => gFwdGo gcat ext .HangulLVT none (acc ++ [ch]) rest
        | _ => (acc, ch :: rest, some cat)
      | .HangulLV =>
        match cat with  -- rule GB7
        | .GC_V => gFwdGo gcat ext .HangulLV none (acc ++ [ch]) rest
        | .GC_T => gFwdGo gcat ext .HangulLVT none (acc ++ [ch]) rest
        | _ => (acc, ch :: rest, some cat)
      | .HangulLVT =>
        match cat with  -- rule GB8
        | .GC_T => gFwdGo gcat ext .HangulLVT none (acc ++ [ch]) rest
        | _ => (acc, ch :: rest, some cat)
      | .Regional =>
        match cat with  -- rule GB12/GB13
        | .GC_Regional_Indicator => gFwdGo gcat ext .FindExtend none (acc ++ [ch]) rest
        | _ => (acc, ch :: rest, some cat)
      | .Emoji =>
        match cat with  -- rule GB10
        | .GC_E_Modifier => gFwdGo gcat ext .Emoji none (acc ++ [ch]) rest
        | _ => (acc, ch :: rest, some cat)
      | .Zwj =>
        match cat with  -- rule GB11
        | .GC_Glue_After_Zwj => gFwdGo gcat ext .Zwj none (acc ++ [ch]) rest
        | .GC_E_Base_GAZ => gFwdGo gcat ext .Emoji none (acc ++ [ch]) rest
        | _ => (acc, ch :: rest, some cat)

/-- `Graphemes::next` (src/grapheme.rs lines 117-244). -/
def Graphemes.next (gcat : Char → GraphemeCat) (g : Graphemes) :
    Option (List Char × Graphemes) :=
  if g.string = [] then none
  else
    -- caching used by next_back() is invalidated up front
    let r := gFwdGo gcat g.extended .Start g.cat [] g.string
    some (r.1,
      { string := r.2.1
        extended := g.extended
        cat := r.2.2
        catb := none
        regional_count_back := none })

/-- The backwards emoji lookback of `Graphemes::next_back` (src/grapheme.rs
lines 355-386).  The input list is `self.string[..previdx]` in reverse order
(rightmost character first); `some k` means the loop broke having decided to
absorb the first `k` scanned characters into the cluster (`idx = startidx`),
`none` means `take_curr = false`. -/
def gBwdEmojiScan (gcat : Char → GraphemeCat) :
    Option Nat → Nat → List Char → Option Nat
  | ebg, _, [] => ebg.map (fun e => e + 1)  -- loop ended: use EBG if found
  | ebg, j, c :: rest =>
    match ebg, gcat c with
    | none, .GC_Extend => gBwdEmojiScan gcat none (j + 1) rest
    | none, .GC_E_Base => some (j + 1)  -- rule GB10
    | none, .GC_E_Base_GAZ => gBwdEmojiScan gcat (some j) (j + 1) rest
    | some _, .GC_ZWJ => some (j + 1)  -- rule GB11
    | eo, _ => eo.map (fun e => e + 1)  -- break: use EBG if found

/-- The rule-GB9b scan after the main loop of `Graphemes::next_back`
(src/grapheme.rs lines 405-416): absorb preceding Prepend characters,
re-caching `catb` at the first non-Prepend.  Arguments and results are
(reversed remaining text, cluster, cached catb). -/
def gPrependScan (gcat : Char → GraphemeCat) :
    List Char → List Char → Option GraphemeCat →
    List Char × List Char × Option GraphemeCat
  | [], cl, catb => ([], cl, catb)
  | c :: restR, cl, catb =>
    if gcat c = .GC_Prepend then gPrependScan gcat restR (c :: cl) catb
    else (c :: restR, cl, some (gcat c))

/-- The main loop of `Graphemes::next_back` (src/grapheme.rs lines 265-396).
`restR` is the not-yet-inspected text in reverse order, `acc` the cluster
collected so far (in text order), `cache` the `self.catb` value (first
character only), `rcb` the `regional_count_back` field and `lastCat` the
loop's `cat` variable.  Returns (cluster, reversed remaining text, `catb` to
cache, new `regional_count_back`, final `cat`). -/
def gBwdGo (gcat : Char → GraphemeCat) (ext : Bool) :
    GraphemeState → Option GraphemeCat → Option Nat → GraphemeCat →
    List Char → List Char →
    List Char × List Char × Option GraphemeCat × Option Nat × GraphemeCat
  | _, _, rcb, lastCat, acc, [] => (acc, [], none, rcb, lastCat)
  | state, cache, rcb, _, acc, ch :: restR =>
    let cat := cache.getD (gcat ch)
    match state with
    | .Start =>
      if ch = '\n' then
        match restR with  -- rule GB3: absorb a preceding CR
        | '\r' :: restR2 => ('\r' :: ch :: acc, restR2, none, rcb, cat)
        | _ => (ch :: acc, restR, none, rcb, cat)  -- rule GB4
      else
        match cat with
        | .GC_Extend => gBwdGo gcat ext .FindExtend none rcb cat (ch :: acc) restR
        | .GC_SpacingMark =>
          if ext then gBwdGo gcat ext .FindExtend none rcb cat (ch :: acc) restR
          else (ch :: acc, restR, none, rcb, cat)  -- falls through to `_ => break`
        | .GC_ZWJ => gBwdGo gcat ext .FindExtend none rcb cat (ch :: acc) restR
        | .GC_E_Modifier => gBwdGo gcat ext .Emoji none rcb cat (ch :: acc) restR
        | .GC_Glue_After_Zwj => gBwdGo gcat ext .Zwj none rcb cat (ch :: acc) restR
        | .GC_E_Base_GAZ => gBwdGo gcat ext .Zwj none rcb cat (ch :: acc) restR
        | .GC_L => gBwdGo gcat ext .HangulL none rcb cat (ch :: acc) restR
        | .GC_LV => gBwdGo gcat ext .HangulL none rcb cat (ch :: acc) restR
        | .GC_LVT => gBwdGo gcat ext .HangulL none rcb cat (ch :: acc) restR
        | .GC_V => gBwdGo gcat ext .HangulLV none rcb cat (ch :: acc) restR
        | .GC_T => gBwdGo gcat ext .HangulLVT none rcb cat (ch :: acc) restR
        | .GC_Regional_Indicator => gBwdGo gcat ext .Regional none rcb cat (ch :: acc) restR
        | .GC_Control => (ch :: acc, restR, none, rcb, cat)  -- take_curr = (Start == state)
        | _ => (ch :: acc, restR, none, rcb, cat)  -- `_ => break`, take_curr = true
    | .FindExtend =>
      match cat with
      | .GC_Extend => gBwdGo gcat ext .FindExtend none rcb cat (ch :: acc) restR
      | .GC_SpacingMark =>
        if ext then gBwdGo gcat ext .FindExtend none rcb cat (ch :: acc) restR
        else (ch :: acc, restR, none, rcb, cat)
      | .GC_ZWJ => gBwdGo gcat ext .FindExtend none rcb cat (ch :: acc) restR
      | .GC_E_Modifier => gBwdGo gcat ext .Emoji none rcb cat (ch :: acc) restR
      | .GC_Glue_After_Zwj => gBwdGo gcat ext .Zwj none rcb cat (ch :: acc) restR
      | .GC_E_Base_GAZ => gBwdGo gcat ext .Zwj none rcb cat (ch :: acc) restR
      | .GC_L => gBwdGo gcat ext .HangulL none rcb cat (ch :: acc) restR
      | .GC_LV => gBwdGo gcat ext .HangulL none rcb cat (ch :: acc) restR
      | .GC_LVT => gBwdGo gcat ext .HangulL none rcb cat (ch :: acc) restR
      | .GC_V => gBwdGo gcat ext .HangulLV none rcb cat (ch :: acc) restR
      | .GC_T => gBwdGo gcat ext .HangulLVT none rcb cat (ch :: acc) restR
      | .GC_Regional_Indicator => gBwdGo gcat ext .Regional none rcb cat (ch :: acc) restR
      | .GC_Control => (acc, ch :: restR, some cat, rcb, cat)  -- take_curr = false
      | _ => (ch :: acc, restR, none, rcb, cat)
    | .HangulL =>
      match cat with  -- char to the right is an L
      | .GC_L => gBwdGo gcat ext .HangulL none rcb cat (ch :: acc) restR
      | _ => (acc, ch :: restR, some cat, rcb, cat)
    | .HangulLV =>
      match cat with  -- char to the right is a V
      | .GC_V => gBwdGo gcat ext .HangulLV none rcb cat (ch :: acc) restR
      | .GC_L => gBwdGo gcat ext .HangulL none rcb cat (ch :: acc) restR
      | .GC_LV => gBwdGo gcat ext .HangulL none rcb cat (ch :: acc) restR
      | _ => (acc, ch :: restR, some cat, rcb, cat)
    | .HangulLVT =>
      match cat with  -- char to the right is a T
      | .GC_T => gBwdGo gcat ext .HangulLVT none rcb cat (ch :: acc) restR
      | .GC_V => gBwdGo gcat ext .HangulLV none rcb cat (ch :: acc) restR
      | .GC_LV => gBwdGo gcat ext .HangulL none rcb cat (ch :: acc) restR
      | .GC_LVT => gBwdGo gcat ext .HangulL none rcb cat (ch :: acc) restR
      | _ => (acc, ch :: restR, some cat, rcb, cat)
    | .Regional =>
      -- rule GB12/GB13: string[..previdx] in reverse order is ch :: restR
      let count :=
        match rcb with
        | some n => n
        | none =>
          ((ch :: restR).takeWhile
            (fun c => decide (gcat c = .GC_Regional_Indicator))).length
      let rcb' := if count = 0 then none else some (count - 1)  -- checked_sub(1)
      if count % 2 = 0 then (acc, ch :: restR, some cat, rcb', cat)  -- take_curr = false
      else gBwdGo gcat ext .Regional none rcb' cat (ch :: acc) restR
    | .Emoji =>
      -- char to the right is E_Modifier; scan string[..previdx] = ch :: restR
      match gBwdEmojiScan gcat none 0 (ch :: restR) with
      | some k =>
        (((ch :: restR).take k).reverse ++ acc, (ch :: restR).drop k, none, rcb, cat)
      | none => (acc, ch :: restR, some cat, rcb, cat)  -- take_curr = false
    | .Zwj =>
      match cat with  -- char to the right is (GAZ|EBG), rule GB11
      | .GC_ZWJ => gBwdGo gcat ext .FindExtend none rcb cat (ch :: acc) restR
      | _ => (acc, ch :: restR, some cat, rcb, cat)
    | .Prepend => (acc, ch :: restR, some cat, rcb, cat)  -- not used in reverse iteration

/-- `Graphemes::next_back` (src/grapheme.rs lines 249-421). -/
def Graphemes.next_back (gcat : Char → GraphemeCat) (g : Graphemes) :
    Option (List Char × Graphemes) :=
  if g.string = [] then none
  else
    -- caching used by next() is invalidated: self.cat = None
    let r := gBwdGo gcat g.extended .Start g.catb g.regional_count_back .GC_Any [] g.string.reverse
    let cl := r.1
    let remR := r.2.1
    let catb1 := r.2.2.1
    let rcb' := r.2.2.2.1
    let lastCat := r.2.2.2.2
    let r2 :=
      if g.extended ∧ lastCat ≠ .GC_Control then gPrependScan gcat remR cl catb1
      else (remR, cl, catb1)
    some (r2.2.1,
      { string := r2.1.reverse
        extended := g.extended
        cat := none
        catb := r2.2.2
        regional_count_back := rcb' })

/-- Repeated forward iteration of `Graphemes::next`, with fuel. -/
def graphemesClusters (gcat : Char → GraphemeCat) :
    Nat → Graphemes → List (List Char)
  | 0, _ => []
  | fuel + 1, g =>
    match Graphemes.next gcat g with
    | none => []
    | some (cl, g') => cl :: graphemesClusters gcat fuel g'

/-- Repeated backward iteration of `Graphemes::next_back`, with fuel. -/
def graphemesClustersBack (gcat : Char → GraphemeCat) :
    Nat → Graphemes → List (List Char)
  | 0, _ => []
  | fuel + 1, g =>
    match Graphemes.next_back gcat g with
    | none => []
    | some (cl, g') => cl :: graphemesClustersBack gcat fuel g'

/-- Byte offsets of the ends of successive clusters, starting at `start`. -/
def clusterEnds (start : Nat) : List (List Char) → List Nat
  | [] => []
  | cl :: rest => (start + byteLen cl) :: clusterEnds (start + byteLen cl) rest

/-- Sentence categories used by src/sentence.rs (`tables::sentence::SentenceCat`). -/
inductive SentenceCat where
  | SC_CR
  | SC_LF
  | SC_Sep
  | SC_ATerm
  | SC_STerm
  | SC_Upper
  | SC_Lower
  | SC_OLetter
  | SC_Numeric
  | SC_SContinue
  | SC_Close
  | SC_Sp
  | SC_Extend
  | SC_Format
  | SC_Other
  deriving DecidableEq, Repr

/-- `enum StatePart` from src/sentence.rs. -/
inductive StatePart where
  | Sot
  | Eot
  | Other
  | CR
  | LF
  | Sep
  | ATerm
  | UpperLower
  | ClosePlus
  | SpPlus
  | STerm
  deriving DecidableEq, Repr

/-- `struct SentenceBreaksState([StatePart; 4])` from src/sentence.rs. -/
structure SBState where
  p0 : StatePart
  p1 : StatePart
  p2 : StatePart
  p3 : StatePart
  deriving DecidableEq, Repr

/-- `INITIAL_STATE` from src/sentence.rs. -/
def sbInitialState : SBState := ⟨.Sot, .Sot, .Sot, .Sot⟩

/-- The category-to-state-part mapping inside `SentenceBreaksState::next`. -/
def partOfCat (cat : SentenceCat) : StatePart :=
  match cat with
  | .SC_CR => .CR
  | .SC_LF => .LF
  | .SC_Sep => .Sep
  | .SC_ATerm => .ATerm
  | .SC_Upper => .UpperLower
  | .SC_Lower => .UpperLower
  | .SC_Close => .ClosePlus
  | .SC_Sp => .SpPlus
  | .SC_STerm => .STerm
  | _ => .Other

/-- `SentenceBreaksState::next`. -/
def SBState.next (s : SBState) (cat : SentenceCat) : SBState :=
  match s.p3, cat with
  | .ClosePlus, .SC_Close => s
  | .SpPlus, .SC_Sp => s
  | _, _ => ⟨s.p1, s.p2, s.p3, partOfCat cat⟩

/-- `SentenceBreaksState::end`. -/
def SBState.atEnd (s : SBState) : SBState := ⟨s.p1, s.p2, s.p3, .Eot⟩

/-- `SentenceBreaksState::match1`. -/
def SBState.match1 (s : SBState) (part : StatePart) : Prop := s.p3 = part

instance (s : SBState) (part : StatePart) : Decidable (s.match1 part) := by
  unfold SBState.match1; infer_instance

/-- `SentenceBreaksState::match2`. -/
def SBState.match2 (s : SBState) (part1 part2 : StatePart) : Prop :=
  s.p2 = part1 ∧ s.p3 = part2

instance (s : SBState) (p1 p2 : StatePart) : Decidable (s.match2 p1 p2) := by
  unfold SBState.match2; infer_instance

/-- Indexing into the four state parts, for the index arithmetic of
`match_sb8`/`match_sb8a`/`match_sb9`/`match_sb11`. -/
def SBState.get (s : SBState) : Nat → StatePart
  | 0 => s.p0
  | 1 => s.p1
  | 2 => s.p2
  | _ => s.p3

/-- The `ATerm Close* Sp*` part extraction shared by `match_sb8` and
`match_sb8a` in src/sentence.rs. -/
def sb8Part (s : SBState) : StatePart :=
  let idx := if s.p3 = .SpPlus then 2 else 3
  let idx := if s.get idx = .ClosePlus then idx - 1 else idx
  s.get idx

/-- The lookahead scan of `match_sb8`: `( ¬(OLetter | Upper | Lower | ParaSep
| SATerm) )* Lower`, over the text from the current position on. -/
def sb8Ahead (scat : Char → SentenceCat) : List Char → Bool
  | [] => false
  | c :: rest =>
    match scat c with
    | .SC_Lower => true
    | .SC_OLetter => false
    | .SC_Upper => false
    | .SC_Sep => false
    | .SC_CR => false
    | .SC_LF => false
    | .SC_STerm => false
    | .SC_ATerm => false
    | _ => sb8Ahead scat rest

/-- `match_sb8` from src/sentence.rs. -/
def matchSb8 (scat : Char → SentenceCat) (s : SBState) (ahead : List Char) : Bool :=
  if sb8Part s = .ATerm then sb8Ahead scat ahead else false

/-- `match_sb8a` from src/sentence.rs. -/
def matchSb8a (s : SBState) : Bool :=
  sb8Part s = .STerm ∨ sb8Part s = .ATerm

/-- `match_sb9` from src/sentence.rs. -/
def matchSb9 (s : SBState) : Bool :=
  let idx := if s.p3 = .ClosePlus then 2 else 3
  s.get idx = .STerm ∨ s.get idx = .ATerm

/-- `match_sb11` from src/sentence.rs. -/
def matchSb11 (s : SBState) : Bool :=
  let idx :=
    match s.p3 with
    | .Sep => 2
    | .CR => 2
    | .LF => 2
    | _ => 3
  let idx := if s.get idx = .SpPlus then idx - 1 else idx
  let idx := if s.get idx = .ClosePlus then idx - 1 else idx
  s.get idx = .STerm ∨ s.get idx = .ATerm

/-- What one iteration of the `for next_char in ...` loop of
`SentenceBreaks::next` does with the current character: `emit` covers the
`return Some(position_before)` arms (SB1, SB4, SB11), `keep` the SB5 arm
that restores `state_before`, and `shift` every `continue` arm (SB3, SB6,
SB7, SB8, SB8a, SB9, SB10, SB998).  The guards appear in source order. -/
inductive SbAction where
  | emit
  | keep
  | shift
  deriving DecidableEq, Repr

/-- The guard chain of `SentenceBreaks::next` (src/sentence.rs lines
180-238), classifying the current character `ch` (with lookahead
`ch :: rest` for SB8) against the previous state `st`. -/
def sbAction (scat : Char → SentenceCat) (st : SBState) (ch : Char)
    (rest : List Char) : SbAction :=
  if st.match1 .Sot then .emit  -- SB1
  else if scat ch = .SC_LF ∧ st.match1 .CR then .shift  -- SB3
  else if st.match1 .Sep ∨ st.match1 .CR ∨ st.match1 .LF then .emit  -- SB4
  else if scat ch = .SC_Extend ∨ scat ch = .SC_Format then .keep  -- SB5
  else if scat ch = .SC_Numeric ∧ st.match1 .ATerm then .shift  -- SB6
  else if scat ch = .SC_Upper ∧ st.match2 .UpperLower .ATerm then .shift  -- SB7
  else if matchSb8 scat st (ch :: rest) then .shift  -- SB8
  else if (scat ch = .SC_SContinue ∨ scat ch = .SC_STerm ∨ scat ch = .SC_ATerm)
      ∧ matchSb8a st then .shift  -- SB8a
  else if (scat ch = .SC_Close ∨ scat ch = .SC_Sp ∨ scat ch = .SC_Sep
        ∨ scat ch = .SC_CR ∨ scat ch = .SC_LF) ∧ matchSb9 st then .shift  -- SB9
  else if (scat ch = .SC_Sp ∨ scat ch = .SC_Sep ∨ scat ch = .SC_CR
        ∨ scat ch = .SC_LF) ∧ matchSb8a st then .shift  -- SB10
  else if matchSb11 st then .emit  -- SB11
  else .shift  -- SB998

/-- The `for next_char in self.string[self.pos..].chars()` loop of
`SentenceBreaks::next` (src/sentence.rs lines 168-250), walking the remaining
text `rest` with current byte position `pos` and state `st`.  Returns
`some (break position, new position, new remaining text, new state)` exactly
when the Rust method returns `Some`, where the new fields are the mutated
`self.pos`/`self.state` (already advanced past the emitting character). -/
def sbNextGo (scat : Char → SentenceCat) :
    List Char → Nat → SBState → Option (Nat × Nat × List Char × SBState)
  | [], pos, st =>
    -- SB2 endgame
    if st.match1 .Sot then none
    else if st.match1 .Eot then none
    else some (pos, pos, [], st.atEnd)
  | ch :: rest, pos, st =>
    match sbAction scat st ch rest with
    | .emit => some (pos, pos + utf8Len ch, rest, st.next (scat ch))
    | .keep => sbNextGo scat rest (pos + utf8Len ch) st
    | .shift => sbNextGo scat rest (pos + utf8Len ch) (st.next (scat ch))

/-- `struct SentenceBreaks` from src/sentence.rs; the remaining text
`self.string[self.pos..]` is carried alongside the byte position. -/
structure SentenceBreaks where
  string : List Char
  pos : Nat
  rest : List Char
  state : SBState
  deriving DecidableEq, Repr

/-- `new_sentence_breaks` from src/sentence.rs. -/
def new_sentence_breaks (s : List Char) : SentenceBreaks :=
  { string := s, pos := 0, rest := s, state := sbInitialState }

/-- `SentenceBreaks::size_hint`. -/
def SentenceBreaks.size_hint (sb : SentenceBreaks) : Nat × Option Nat :=
  (min (byteLen sb.string) 2, some (byteLen sb.string + 1))

/-- `SentenceBreaks::next`. -/
def SentenceBreaks.next (scat : Char → SentenceCat) (sb : SentenceBreaks) :
    Option (Nat × SentenceBreaks) :=
  match sbNextGo scat sb.rest sb.pos sb.state with
  | none => none
  | some (b, pos', rest', st') =>
    some (b, { string := sb.string, pos := pos', rest := rest', state := st' })

/-- Wrapping usize subtraction: release-mode Rust `a - b` on `usize`
(debug builds would panic on the same underflow). -/
def usizeSub (a b : Nat) : Nat := (2 ^ 64 + a - b) % 2 ^ 64

/-- `struct USentenceBounds` from src/sentence.rs. -/
structure USentenceBounds where
  iter : SentenceBreaks
  sentence_start : Option Nat
  deriving DecidableEq, Repr

/-- `new_sentence_bounds` from src/sentence.rs. -/
def new_sentence_bounds (s : List Char) : USentenceBounds :=
  { iter := new_sentence_breaks s, sentence_start := none }

/-- `USentenceBounds::size_hint` (src/sentence.rs lines 278-281): note the
`lower - 1` / `u - 1` on usize. -/
def USentenceBounds.size_hint (u : USentenceBounds) : Nat × Option Nat :=
  let lu := u.iter.size_hint
  (max 0 (usizeSub lu.1 1), lu.2.map (fun x => max 0 (usizeSub x 1)))

/-- The byte slice `s[a..b]` used by `USentenceBounds::next`, as the chars
whose start offset (`off` accumulating from the list head) lies in `[a, b)`. -/
def sliceFrom (s : List Char) (off a b : Nat) : List Char :=
  match s with
  | [] => []
  | c :: rest =>
    (if a ≤ off ∧ off < b then [c] else []) ++ sliceFrom rest (off + utf8Len c) a b

/-- `USentenceBounds::next` (src/sentence.rs lines 284-301). -/
def USentenceBounds.next (scat : Char → SentenceCat) (u : USentenceBounds) :
    Option (List Char × USentenceBounds) :=
  let seeded :=
    match u.sentence_start with
    | some _ => some u
    | none =>
      match u.iter.next scat with
      | some (start_pos, it') => some { iter := it', sentence_start := some start_pos }
      | none => none
  match seeded with
  | none => none
  | some u =>
    match u.iter.next scat with
    | some (break_pos, it') =>
      match u.sentence_start with
      | some start_pos =>
        some (sliceFrom u.iter.string 0 start_pos break_pos,
              { iter := it', sentence_start := some break_pos })
      | none => none  -- unreachable: sentence_start was just seeded
    | none => none

/-- Repeated iteration of `USentenceBounds::next`, with fuel. -/
def boundsClusters (scat : Char → SentenceCat) :
    Nat → USentenceBounds → List (List Char)
  | 0, _ => []
  | fuel + 1, u =>
    match USentenceBounds.next scat u with
    | none => []
    | some (cl, u') => cl :: boundsClusters scat fuel u'

/-- A sample sentence-category assignment for concrete test texts. -/
def demoScat (c : Char) : SentenceCat :=
  if c = '.' then .SC_ATerm
  else if c = ' ' then .SC_Sp
  else if c = 'U' then .SC_Upper
  else if c = 'l' then .SC_Lower
  else .SC_Other

/-- C1 scenario: text "xy" (both Any), chunked as "x" at 0 and "y" at 1.
First `next_boundary` call on the first chunk. -/
def c1Run1 : COut (Option Nat) × GraphemeCursor :=
  GraphemeCursor.next_boundary demoGcat 8 (GraphemeCursor.new 0 2 true) ['x'] 0

/-- C1 scenario: the re-entering `next_boundary` call on the second chunk. -/
def c1Run2 : COut (Option Nat) × GraphemeCursor :=
  GraphemeCursor.next_boundary demoGcat 8 c1Run1.snd ['y'] 1

/-- C1: driving `next_boundary` over the chunking "x" + "y" of "xy" yields
only the boundary 2 (the first call consumes 'x', reaches the chunk seam and
returns `NextChunk` before ever testing offset 1; the re-entering call
consumes 'y' immediately), whereas the `Graphemes` iterator over the whole
text has boundaries 1 and 2.  This refutes the claimed equivalence: the
cursor loop skips boundaries that fall exactly on a chunk seam. -/
theorem C1_next_boundary_skips_chunk_seam :
    c1Run1.fst = .err .NextChunk ∧
    c1Run2.fst = .ok (some 2) ∧
    clusterEnds 0 (graphemesClusters demoGcat 3 (new_graphemes ['x', 'y'] true)) = [1, 2] ∧
    demoGcat 'x' = .GC_Any ∧ demoGcat 'y' = .GC_Any := by
  decide

/-- C2: at a cursor position classified `Extended` (Any before, SpacingMark
after), `is_boundary` returns `Ok(true)` in extended mode and `Ok(false)` in
legacy mode — the exact inverse of the claimed "break iff not in extended
mode" (the source's `decision(is_extended)` lacks the negation). -/
theorem C2_extended_outcome_is_inverted :
    checkPair (demoGcat 'a') (demoGcat 's') = .Extended ∧
    (GraphemeCursor.is_boundary demoGcat (GraphemeCursor.new 1 2 true)
      ['a', 's'] 0).fst = .ok true ∧
    (GraphemeCursor.is_boundary demoGcat (GraphemeCursor.new 1 2 false)
      ['a', 's'] 0).fst = .ok false := by
  decide

/-- C3: `check_pair` maps (ZWJ, Glue_After_Zwj) to NotBreak as claimed, but
(ZWJ, E_Base_GAZ) falls through to the GB999 wildcard and yields Break: the
GB11 row for E_Base_GAZ is missing from the classifier. -/
theorem C3_zwj_ebg_pair_breaks :
    checkPair .GC_ZWJ .GC_Glue_After_Zwj = .NotBreak ∧
    checkPair .GC_ZWJ .GC_E_Base_GAZ = .Break := by
  decide

/-- C4 scenario: text "xy" (both Any), cursor at offset 1, chunk "y" at 1.
`is_boundary` requests pre-context. -/
def c4Request : COut Bool × GraphemeCursor :=
  GraphemeCursor.is_boundary demoGcat (GraphemeCursor.new 1 2 true) ['y'] 1

/-- C4: after `is_boundary` returns `PreContext(1)` for an ordinary code
point at the start of its chunk, `provide_context` with the correct
pre-context chunk "x" (satisfying chunk_start + chunk.len() == 1) reaches the
`panic!("invalid state")` arm, because the state is still `Unknown` and the
pre-context character is not Prepend. -/
theorem C4_provide_context_panics_on_ordinary_pair :
    c4Request.fst = .err (.PreContext 1) ∧
    0 + byteLen ['x'] = 1 ∧
    demoGcat 'x' = .GC_Any ∧ demoGcat 'y' = .GC_Any ∧
    (GraphemeCursor.provide_context demoGcat c4Request.snd ['x'] 0).fst = .panicked := by
  decide

/-- C5 scenario: a cursor with populated category caches and RIS count. -/
def c5Cursor : GraphemeCursor :=
  { offset := 2
    len := 4
    is_extended := true
    state := .NotBreak
    cat := some .GC_L
    catb := some .GC_V
    pre_context_offset := none
    ris_count := some 3 }

/-- C5: `set_cursor` to a different offset updates only `offset` and `state`;
`cat`, `catb` and `ris_count` keep their stale values instead of being
cleared, and `set_cursor` to the current offset changes nothing at all (the
stale `NotBreak` state survives too). -/
theorem C5_set_cursor_keeps_stale_caches :
    (c5Cursor.set_cursor 1).offset = 1 ∧
    (c5Cursor.set_cursor 1).state = .Unknown ∧
    (c5Cursor.set_cursor 1).cat = some .GC_L ∧
    (c5Cursor.set_cursor 1).catb = some .GC_V ∧
    (c5Cursor.set_cursor 1).ris_count = some 3 ∧
    c5Cursor.set_cursor 2 = c5Cursor := by
  decide

/-- C7: on the text "azgm" (Any, ZWJ, E_Base_GAZ, E_Modifier) in extended
mode the forward iterator yields one cluster, but the backward iterator
yields two (its emoji lookback stops the cluster at the ZWJ, dropping the
GB9 join of 'a' with the following ZWJ), so backward iteration reversed is
not forward iteration. -/
theorem C7_forward_and_backward_disagree :
    graphemesClusters demoGcat 5 (new_graphemes ['a', 'z', 'g', 'm'] true) =
      [['a', 'z', 'g', 'm']] ∧
    graphemesClustersBack demoGcat 5 (new_graphemes ['a', 'z', 'g', 'm'] true) =
      [['z', 'g', 'm'], ['a']] ∧
    (graphemesClustersBack demoGcat 5 (new_graphemes ['a', 'z', 'g', 'm'] true)).reverse ≠
      graphemesClusters demoGcat 5 (new_graphemes ['a', 'z', 'g', 'm'] true) := by
  decide

/-- C9: on the empty string `USentenceBounds::size_hint` computes
`min(0, 2) - 1` on usize, which wraps to 2^64 - 1 (and would panic in a
debug build), while the iterator yields no items at all — the claimed
`lower ≤ actual count` fails on the empty string. -/
theorem C9_sentence_bounds_size_hint_underflows :
    (USentenceBounds.size_hint (new_sentence_bounds [])).1 = 2 ^ 64 - 1 ∧
    boundsClusters demoScat 2 (new_sentence_bounds []) = [] ∧
    ¬ (USentenceBounds.size_hint (new_sentence_bounds [])).1 ≤
        (boundsClusters demoScat 2 (new_sentence_bounds [])).length := by
  refine ⟨by decide, by decide, ?_⟩
  have h1 : (USentenceBounds.size_hint (new_sentence_bounds [])).1 = 2 ^ 64 - 1 := by decide
  have h2 : (boundsClusters demoScat 2 (new_sentence_bounds [])).length = 0 := by decide
  rw [h1, h2]
  decide

set_option maxHeartbeats 2000000 in
theorem gFwdGo_split (gcat : Char → GraphemeCat) (ext : Bool) :
    ∀ (rest : List Char) (state : GraphemeState) (cache : Option GraphemeCat)
      (acc : List Char),
      (gFwdGo gcat ext state cache acc rest).1 ++
        (gFwdGo gcat ext state cache acc rest).2.1 = acc ++ rest := by
  intro rest
  induction rest with
  | nil => intro state cache acc; simp [gFwdGo]
  | cons ch rest ih =>
    intro state cache acc
    simp only [gFwdGo]
    repeat' split
    all_goals simp [ih]

set_option maxHeartbeats 2000000 in
theorem gFwdGo_ne_of_acc_ne (gcat : Char → GraphemeCat) (ext : Bool) :
    ∀ (rest : List Char) (state : GraphemeState) (cache : Option GraphemeCat)
      (acc : List Char), acc ≠ [] →
      (gFwdGo gcat ext state cache acc rest).1 ≠ [] := by
  intro rest
  induction rest with
  | nil => intro state cache acc h; simpa [gFwdGo] using h
  | cons ch rest ih =>
    intro state cache acc h
    simp only [gFwdGo]
    repeat' split
    all_goals first
      | exact ih _ _ _ (by simp)
      | simpa using h
      | simp

set_option maxHeartbeats 2000000 in
theorem gFwdGo_start_ne (gcat : Char → GraphemeCat) (ext : Bool)
    (ch : Char) (rest : List Char) (cache : Option GraphemeCat) :
    (gFwdGo gcat ext .Start cache [] (ch :: rest)).1 ≠ [] := by
  simp only [gFwdGo]
  repeat' split
  all_goals first
    | exact gFwdGo_ne_of_acc_ne gcat ext _ _ _ _ (by simp)
    | simp

set_option maxHeartbeats 4000000 in
theorem gBwdGo_split (gcat : Char → GraphemeCat) (ext : Bool) :
    ∀ (restR : List Char) (state : GraphemeState) (cache : Option GraphemeCat)
      (rcb : Option Nat) (lastCat : GraphemeCat) (acc : List Char),
      ((gBwdGo gcat ext state cache rcb lastCat acc restR).2.1).reverse ++
        (gBwdGo gcat ext state cache rcb lastCat acc restR).1 =
      restR.reverse ++ acc := by
  intro restR
  induction restR with
  | nil => intro state cache rcb lastCat acc; simp [gBwdGo]
  | cons ch restR ih =>
    intro state cache rcb lastCat acc
    simp only [gBwdGo]
    repeat' split
    all_goals first
      | (rw [← List.append_assoc, ← List.reverse_append, List.take_append_drop])
      | simp [ih]

set_option maxHeartbeats 4000000 in
theorem gBwdGo_ne_of_acc_ne (gcat : Char → GraphemeCat) (ext : Bool) :
    ∀ (restR : List Char) (state : GraphemeState) (cache : Option GraphemeCat)
      (rcb : Option Nat) (lastCat : GraphemeCat) (acc : List Char), acc ≠ [] →
      (gBwdGo gcat ext state cache rcb lastCat acc restR).1 ≠ [] := by
  intro restR
  induction restR with
  | nil => intro state cache rcb lastCat acc h; simpa [gBwdGo] using h
  | cons ch restR ih =>
    intro state cache rcb lastCat acc h
    simp only [gBwdGo]
    repeat' split
    all_goals first
      | exact ih _ _ _ _ _ (by simp)
      | simp_all

set_option maxHeartbeats 4000000 in
theorem gBwdGo_start_ne (gcat : Char → GraphemeCat) (ext : Bool)
    (ch : Char) (restR : List Char) (cache : Option GraphemeCat)
    (rcb : Option Nat) (lastCat : GraphemeCat) :
    (gBwdGo gcat ext .Start cache rcb lastCat [] (ch :: restR)).1 ≠ [] := by
  simp only [gBwdGo]
  repeat' split
  all_goals first
    | exact gBwdGo_ne_of_acc_ne gcat ext _ _ _ _ _ _ (by simp)
    | simp

theorem gPrependScan_split (gcat : Char → GraphemeCat) :
    ∀ (restR cl : List Char) (catb : Option GraphemeCat),
      ((gPrependScan gcat restR cl catb).1).reverse ++
        (gPrependScan gcat restR cl catb).2.1 =
      restR.reverse ++ cl := by
  intro restR
  induction restR with
  | nil => intro cl catb; simp [gPrependScan]
  | cons c restR ih =>
    intro cl catb
    simp only [gPrependScan]
    split <;> simp [ih]

theorem gPrependScan_ne (gcat : Char → GraphemeCat) :
    ∀ (restR cl : List Char) (catb : Option GraphemeCat), cl ≠ [] →
      (gPrependScan gcat restR cl catb).2.1 ≠ [] := by
  intro restR
  induction restR with
  | nil => intro cl catb h; simpa [gPrependScan] using h
  | cons c restR ih =>
    intro cl catb h
    simp only [gPrependScan]
    split
    · exact ih _ _ (by simp)
    · simpa using h

theorem Graphemes_next_split (gcat : Char → GraphemeCat) (g : Graphemes)
    (cl : List Char) (g' : Graphemes) (h : Graphemes.next gcat g = some (cl, g')) :
    cl ≠ [] ∧ cl ++ g'.string = g.string := by
  by_cases hs : g.string = []
  · simp [Graphemes.next, hs] at h
  · rw [Graphemes.next, if_neg hs] at h
    simp only [Option.some.injEq, Prod.mk.injEq] at h
    obtain ⟨h1, h2⟩ := h
    obtain ⟨ch, rest', hsr⟩ := List.exists_cons_of_ne_nil hs
    refine ⟨?_, ?_⟩
    · rw [← h1, hsr]
      exact gFwdGo_start_ne gcat g.extended ch rest' g.cat
    · rw [← h1, ← h2]
      simpa using gFwdGo_split gcat g.extended g.string .Start g.cat []

theorem Graphemes_next_back_split (gcat : Char → GraphemeCat) (g : Graphemes)
    (cl : List Char) (g' : Graphemes)
    (h : Graphemes.next_back gcat g = some (cl, g')) :
    cl ≠ [] ∧ g'.string ++ cl = g.string := by
  by_cases hs : g.string = []
  · simp [Graphemes.next_back, hs] at h
  · rw [Graphemes.next_back, if_neg hs] at h
    simp only [Option.some.injEq, Prod.mk.injEq] at h
    obtain ⟨h1, h2⟩ := h
    have hrs : g.string.reverse ≠ [] := by simpa using hs
    obtain ⟨ch, restR, hsr⟩ := List.exists_cons_of_ne_nil hrs
    have hne : (gBwdGo gcat g.extended .Start g.catb g.regional_count_back
        .GC_Any [] g.string.reverse).1 ≠ [] := by
      rw [hsr]; exact gBwdGo_start_ne gcat g.extended ch restR g.catb _ _
    have hsplit := gBwdGo_split gcat g.extended g.string.reverse .Start g.catb
      g.regional_count_back .GC_Any []
    refine ⟨?_, ?_⟩
    · rw [← h1]
      split
      · exact gPrependScan_ne gcat _ _ _ hne
      · exact hne
    · rw [← h1, ← h2]
      split
      · rw [gPrependScan_split]
        simpa using hsplit
      · simpa using hsplit

/-- C10: every cluster yielded by the whole-text iterator is non-empty;
forward clusters are taken off the front of the remaining text and backward
clusters off its back, so the remaining slice shrinks strictly on the
corresponding side. -/
theorem C10_clusters_are_nonempty_adjacent_slices
    (gcat : Char → GraphemeCat) (g : Graphemes) (cl : List Char) (g' : Graphemes) :
    (Graphemes.next gcat g = some (cl, g') → cl ≠ [] ∧ cl ++ g'.string = g.string) ∧
    (Graphemes.next_back gcat g = some (cl, g') → cl ≠ [] ∧ g'.string ++ cl = g.string) :=
  ⟨Graphemes_next_split gcat g cl g', Graphemes_next_back_split gcat g cl g'⟩

/-- Witness for C10 on the concrete text "xy": both directions yield a
non-empty cluster and split the text on the corresponding side. -/
theorem C10_witness :
    ((['x'] : List Char) ≠ [] ∧ ['x'] ++ ['y'] = (['x', 'y'] : List Char)) ∧
    ((['y'] : List Char) ≠ [] ∧ ['x'] ++ ['y'] = (['x', 'y'] : List Char)) :=
  ⟨(C10_clusters_are_nonempty_adjacent_slices demoGcat
      (new_graphemes ['x', 'y'] true) ['x']
      { string := ['y'], extended := true, cat := some .GC_Any,
        catb := none, regional_count_back := none }).1 (by decide),
   (C10_clusters_are_nonempty_adjacent_slices demoGcat
      (new_graphemes ['x', 'y'] true) ['y']
      { string := ['x'], extended := true, cat := none,
        catb := some .GC_Any, regional_count_back := none }).2 (by decide)⟩

theorem utf8Len_pos (c : Char) : 0 < utf8Len c := by
  unfold utf8Len
  repeat' split
  all_goals simp

theorem sliceFrom_of_le (s : List Char) :
    ∀ (off a b : Nat), b ≤ off → sliceFrom s off a b = [] := by
  induction s with
  | nil => intro off a b h; simp [sliceFrom]
  | cons c rest ih =>
    intro off a b h
    simp only [sliceFrom]
    rw [ih _ _ _ (le_trans h (Nat.le_add_right _ _))]
    have : ¬ (a ≤ off ∧ off < b) := by omega
    simp [this]

theorem sliceFrom_low_irrel (s : List Char) :
    ∀ (off a a2 b : Nat), a ≤ off → a2 ≤ off →
      sliceFrom s off a b = sliceFrom s off a2 b := by
  induction s with
  | nil => intro off a a2 b h1 h2; simp [sliceFrom]
  | cons c rest ih =>
    intro off a a2 b h1 h2
    simp only [sliceFrom]
    rw [ih (off + utf8Len c) a a2 b (by omega) (by omega)]
    by_cases hb : off < b
    · have e1 : a ≤ off ∧ off < b := ⟨h1, hb⟩
      have e2 : a2 ≤ off ∧ off < b := ⟨h2, hb⟩
      simp [e1, e2]
    · have e1 : ¬ (a ≤ off ∧ off < b) := by omega
      have e2 : ¬ (a2 ≤ off ∧ off < b) := by omega
      simp [e1, e2]

theorem sliceFrom_append_mid (s : List Char) :
    ∀ (off a m b : Nat), a ≤ m → m ≤ b →
      sliceFrom s off a m ++ sliceFrom s off m b = sliceFrom s off a b := by
  induction s with
  | nil => intro off a m b h1 h2; simp [sliceFrom]
  | cons c rest ih =>
    intro off a m b h1 h2
    by_cases hm : m ≤ off
    · rw [sliceFrom_of_le (c :: rest) off a m hm, List.nil_append]
      exact sliceFrom_low_irrel (c :: rest) off m a b hm (le_trans h1 hm)
    · simp only [sliceFrom]
      have hnb : ¬ (m ≤ off ∧ off < b) := by omega
      by_cases ha : a ≤ off
      · have hm1 : a ≤ off ∧ off < m := by omega
        have hb1 : a ≤ off ∧ off < b := by omega
        simp [hm, hm1, hb1, hnb, ih _ _ _ _ h1 h2]
      · have hm1 : ¬ (a ≤ off ∧ off < m) := by omega
        have hb1 : ¬ (a ≤ off ∧ off < b) := by omega
        simp [hm, hm1, hb1, hnb, ih _ _ _ _ h1 h2]

theorem sliceFrom_full (s : List Char) :
    ∀ (off a b : Nat), a ≤ off → off + byteLen s ≤ b → sliceFrom s off a b = s := by
  induction s with
  | nil => intro off a b h1 h2; simp [sliceFrom]
  | cons c rest ih =>
    intro off a b h1 h2
    have hw := utf8Len_pos c
    simp only [byteLen] at h2
    have hin : a ≤ off ∧ off < b := by omega
    simp only [sliceFrom, hin, and_self, if_true]
    rw [ih (off + utf8Len c) a b (by omega) (by omega)]
    simp

theorem partOfCat_ne_sot (cat : SentenceCat) : partOfCat cat ≠ .Sot := by
  cases cat <;> simp [partOfCat]

theorem partOfCat_ne_eot (cat : SentenceCat) : partOfCat cat ≠ .Eot := by
  cases cat <;> simp [partOfCat]

theorem SBState.next_p3 (st : SBState) (cat : SentenceCat) :
    (st.next cat).p3 ≠ .Sot ∧ (st.next cat).p3 ≠ .Eot := by
  unfold SBState.next
  split <;> simp_all [partOfCat_ne_sot, partOfCat_ne_eot]

theorem sbGo_eot_none (scat : Char → SentenceCat) (pos : Nat) (st : SBState)
    (h : st.p3 = .Eot) : sbNextGo scat [] pos st = none := by
  simp [sbNextGo, SBState.match1, h]

theorem sbAction_keep_not_sot (scat : Char → SentenceCat) (st : SBState)
    (ch : Char) (rest : List Char) (h : sbAction scat st ch rest = .keep) :
    st.p3 ≠ .Sot := by
  unfold sbAction at h
  intro hs
  rw [if_pos (show st.match1 .Sot from hs)] at h
  exact SbAction.noConfusion h

/-- The invariant relating one successful `SentenceBreaks::next` step to its
inputs: the break lies between the old and new positions, byte accounting is
preserved, the new state is never start-of-text, end-of-text only occurs at
the very end with the break equal to the new position, and the remaining text
shrinks. -/
def SbInv (pos : Nat) (rest : List Char) (b p2 : Nat) (r2 : List Char)
    (st2 : SBState) : Prop :=
  pos ≤ b ∧ b ≤ p2 ∧ p2 + byteLen r2 = pos + byteLen rest ∧
  st2.p3 ≠ .Sot ∧
  (st2.p3 = .Eot → b = p2 ∧ r2 = []) ∧
  (rest = [] → st2.p3 = .Eot) ∧
  (rest ≠ [] → r2.length < rest.length)

theorem sbInv_end (pos : Nat) (st : SBState) :
    SbInv pos [] pos pos [] st.atEnd := by
  refine ⟨le_refl _, le_refl _, rfl, by simp [SBState.atEnd], fun _ => ⟨rfl, rfl⟩,
    fun _ => by simp [SBState.atEnd], fun h => absurd rfl h⟩

theorem sbInv_terminal (pos : Nat) (ch : Char) (rest : List Char)
    (st : SBState) (cat : SentenceCat) :
    SbInv pos (ch :: rest) pos (pos + utf8Len ch) rest (st.next cat) := by
  refine ⟨le_refl _, Nat.le_add_right _ _, by simp [byteLen]; omega,
    (SBState.next_p3 st cat).1, fun h => absurd h (SBState.next_p3 st cat).2,
    fun h => List.noConfusion h, fun _ => by simp⟩

theorem sbInv_up (pos : Nat) (ch : Char) (rest : List Char) (b p2 : Nat)
    (r2 : List Char) (st2 : SBState)
    (h : SbInv (pos + utf8Len ch) rest b p2 r2 st2) :
    SbInv pos (ch :: rest) b p2 r2 st2 := by
  obtain ⟨h1, h2, h3, h4, h5, h6, h7⟩ := h
  refine ⟨by omega, h2, by simp [byteLen] at h3 ⊢; omega, h4, h5,
    fun hc => List.noConfusion hc, fun _ => ?_⟩
  by_cases hr : rest = []
  · have he := h6 hr
    obtain ⟨_, hr2⟩ := h5 he
    subst hr hr2
    simp
  · have := h7 hr
    simp
    omega

theorem sbGo_inv (scat : Char → SentenceCat) :
    ∀ (rest : List Char) (pos : Nat) (st : SBState) (b p2 : Nat)
      (r2 : List Char) (st2 : SBState),
      sbNextGo scat rest pos st = some (b, p2, r2, st2) →
      SbInv pos rest b p2 r2 st2 := by
  intro rest
  induction rest with
  | nil =>
    intro pos st b p2 r2 st2 h
    simp only [sbNextGo] at h
    split at h
    · exact absurd h (by simp)
    · split at h
      · exact absurd h (by simp)
      · simp only [Option.some.injEq, Prod.mk.injEq] at h
        obtain ⟨rfl, rfl, rfl, rfl⟩ := h
        exact sbInv_end pos st
  | cons ch rest ih =>
    intro pos st b p2 r2 st2 h
    simp only [sbNextGo] at h
    split at h
    · simp only [Option.some.injEq, Prod.mk.injEq] at h
      obtain ⟨rfl, rfl, rfl, rfl⟩ := h
      exact sbInv_terminal pos ch rest st (scat ch)
    · exact sbInv_up pos ch rest b p2 r2 st2 (ih _ _ _ _ _ _ h)
    · exact sbInv_up pos ch rest b p2 r2 st2 (ih _ _ _ _ _ _ h)

theorem sbGo_none (scat : Char → SentenceCat) :
    ∀ (rest : List Char) (pos : Nat) (st : SBState),
      sbNextGo scat rest pos st = none →
      st.p3 = .Eot ∨ (rest = [] ∧ st.p3 = .Sot) := by
  intro rest
  induction rest with
  | nil =>
    intro pos st h
    simp only [sbNextGo] at h
    split at h
    · next hs => exact Or.inr ⟨rfl, hs⟩
    · split at h
      · next he => exact Or.inl he
      · exact absurd h (by simp)
  | cons ch rest ih =>
    intro pos st h
    simp only [sbNextGo] at h
    split at h
    · exact absurd h (by simp)
    · next hA =>
      rcases ih _ _ h with h1 | ⟨h1, h2⟩
      · exact Or.inl h1
      · exact absurd h2 (sbAction_keep_not_sot scat st ch rest hA)
    · rcases ih _ _ h with h1 | ⟨h1, h2⟩
      · exact absurd h1 (SBState.next_p3 _ _).2
      · exact absurd h2 (SBState.next_p3 _ _).1

theorem sliceFrom_ge (s : List Char) :
    ∀ (off a b : Nat), b ≤ a → sliceFrom s off a b = [] := by
  induction s with
  | nil => intro off a b h; simp [sliceFrom]
  | cons c rest ih =>
    intro off a b h
    have hn : ¬ (a ≤ off ∧ off < b) := by omega
    simp [sliceFrom, hn, ih _ _ _ h]

set_option maxHeartbeats 1000000 in
theorem boundsGo (scat : Char → SentenceCat) (s : List Char) :
    ∀ (fuel pos : Nat) (rest : List Char) (st : SBState) (b : Nat),
      pos + byteLen rest = byteLen s →
      b ≤ pos →
      st.p3 ≠ .Sot →
      (st.p3 = .Eot → rest = [] ∧ b = byteLen s) →
      (if st.p3 = .Eot then 1 else rest.length + 2) ≤ fuel →
      (boundsClusters scat fuel ⟨⟨s, pos, rest, st⟩, some b⟩).flatten =
        sliceFrom s 0 b (byteLen s) := by
  intro fuel
  induction fuel with
  | zero =>
    intro pos rest st b _ _ _ _ hf
    split at hf <;> omega
  | succ fuel ih =>
    intro pos rest st b hbyte hble hsot heot hf
    by_cases hE : st.p3 = .Eot
    · obtain ⟨hrest, hb⟩ := heot hE
      subst hrest
      subst hb
      rw [sliceFrom_ge s 0 (byteLen s) (byteLen s) (le_refl _)]
      simp [boundsClusters, USentenceBounds.next, SentenceBreaks.next,
        sbGo_eot_none scat pos st hE]
    · rw [if_neg hE] at hf
      cases hcase : sbNextGo scat rest pos st with
      | none =>
        rcases sbGo_none scat rest pos st hcase with h1 | ⟨h1, h2⟩
        · exact absurd h1 hE
        · exact absurd h2 hsot
      | some v =>
        obtain ⟨b1, p2, r2, st2⟩ := v
        obtain ⟨i1, i2, i3, i4, i5, i6, i7⟩ :=
          sbGo_inv scat rest pos st b1 p2 r2 st2 hcase
        have hnext : USentenceBounds.next scat ⟨⟨s, pos, rest, st⟩, some b⟩ =
            some (sliceFrom s 0 b b1, ⟨⟨s, p2, r2, st2⟩, some b1⟩) := by
          simp [USentenceBounds.next, SentenceBreaks.next, hcase]
        have hb1len : b1 ≤ byteLen s := by omega
        have htail : (boundsClusters scat fuel ⟨⟨s, p2, r2, st2⟩, some b1⟩).flatten =
            sliceFrom s 0 b1 (byteLen s) := by
          apply ih p2 r2 st2 b1 (by omega) i2 i4
          · intro hE2
            obtain ⟨hbp, hr2⟩ := i5 hE2
            subst hr2
            simp only [byteLen] at i3
            exact ⟨rfl, by omega⟩
          · by_cases hE2 : st2.p3 = .Eot
            · rw [if_pos hE2]
              omega
            · rw [if_neg hE2]
              by_cases hr : rest = []
              · exact absurd (i6 hr) hE2
              · have := i7 hr
                omega
        simp only [boundsClusters, hnext, List.flatten_cons]
        rw [htail]
        exact sliceFrom_append_mid s 0 b b1 (byteLen s) (by omega) hb1len

/-- One-step unfolding of `sbNextGo` on a non-empty text. -/
theorem sbNextGo_cons (scat : Char → SentenceCat) (ch : Char) (rest : List Char)
    (pos : Nat) (st : SBState) :
    sbNextGo scat (ch :: rest) pos st =
      (match sbAction scat st ch rest with
       | .emit => some (pos, pos + utf8Len ch, rest, st.next (scat ch))
       | .keep => sbNextGo scat rest (pos + utf8Len ch) st
       | .shift => sbNextGo scat rest (pos + utf8Len ch) (st.next (scat ch))) := rfl

theorem graphemesClusters_concat (gcat : Char → GraphemeCat) :
    ∀ (fuel : Nat) (g : Graphemes), g.string.length < fuel →
      (graphemesClusters gcat fuel g).flatten = g.string := by
  intro fuel
  induction fuel with
  | zero => intro g h; exact absurd h (Nat.not_lt_zero _)
  | succ fuel ih =>
    intro g h
    by_cases hs : g.string = []
    · simp [graphemesClusters, Graphemes.next, hs]
    · cases hn : Graphemes.next gcat g with
      | none =>
        rw [Graphemes.next, if_neg hs] at hn
        exact Option.noConfusion hn
      | some v =>
        obtain ⟨cl, g2⟩ := v
        obtain ⟨hne, hsplit⟩ := Graphemes_next_split gcat g cl g2 hn
        have hlen : g2.string.length < fuel := by
          have hsum : cl.length + g2.string.length = g.string.length := by
            rw [← hsplit]; simp
          have hcl : 0 < cl.length := List.length_pos.mpr hne
          omega
        simp only [graphemesClusters, hn, List.flatten_cons]
        rw [ih g2 hlen, hsplit]

theorem sentenceBoundsConcat (scat : Char → SentenceCat) (s : List Char) :
    (boundsClusters scat (s.length + 2) (new_sentence_bounds s)).flatten = s := by
  cases s with
  | nil =>
    simp [boundsClusters, new_sentence_bounds, new_sentence_breaks,
      USentenceBounds.next, SentenceBreaks.next, sbNextGo, sbInitialState,
      SBState.match1]
  | cons ch rest =>
    have hseed : sbNextGo scat (ch :: rest) 0 sbInitialState =
        some (0, 0 + utf8Len ch, rest, sbInitialState.next (scat ch)) := by
      have hA : sbAction scat sbInitialState ch rest = .emit := by
        rw [sbAction, if_pos]
        show sbInitialState.p3 = .Sot
        rfl
      rw [sbNextGo_cons, hA]
    have hstep : USentenceBounds.next scat (new_sentence_bounds (ch :: rest)) =
        USentenceBounds.next scat
          ⟨⟨ch :: rest, 0 + utf8Len ch, rest, sbInitialState.next (scat ch)⟩, some 0⟩ := by
      simp [USentenceBounds.next, new_sentence_bounds, new_sentence_breaks,
        SentenceBreaks.next, hseed]
    have hcongr : boundsClusters scat (rest.length + 2 + 1) (new_sentence_bounds (ch :: rest)) =
        boundsClusters scat (rest.length + 2 + 1)
          ⟨⟨ch :: rest, 0 + utf8Len ch, rest, sbInitialState.next (scat ch)⟩, some 0⟩ := by
      conv_lhs => rw [boundsClusters, hstep]
      conv_rhs => rw [boundsClusters]
    have hlen : (ch :: rest).length + 2 = rest.length + 2 + 1 := by simp
    rw [hlen, hcongr]
    rw [boundsGo scat (ch :: rest) (rest.length + 2 + 1) (0 + utf8Len ch) rest
      (sbInitialState.next (scat ch)) 0
      (by simp [byteLen])
      (Nat.zero_le _)
      (SBState.next_p3 _ _).1
      (fun hE => absurd hE (SBState.next_p3 _ _).2)
      (by rw [if_neg (SBState.next_p3 _ _).2]; omega)]
    exact sliceFrom_full (ch :: rest) 0 0 (byteLen (ch :: rest)) (le_refl _) (by omega)

/-- C6: for every text, either mode and any category assignment, the
concatenation of the clusters yielded by forward iteration of
`Graphemes::next` equals the text, and the concatenation of the slices
yielded by `USentenceBounds::next` (split_sentence_bounds) equals the text. -/
theorem C6_concatenation_restores_text (gcat : Char → GraphemeCat)
    (scat : Char → SentenceCat) (ext : Bool) (s : List Char) :
    (graphemesClusters gcat (s.length + 1) (new_graphemes s ext)).flatten = s ∧
    (boundsClusters scat (s.length + 2) (new_sentence_bounds s)).flatten = s :=
  ⟨graphemesClusters_concat gcat (s.length + 1) (new_graphemes s ext)
      (Nat.lt_succ_self _),
   sentenceBoundsConcat scat s⟩

theorem byteLen_append (a b : List Char) :
    byteLen (a ++ b) = byteLen a + byteLen b := by
  induction a with
  | nil => simp [byteLen]
  | cons c rest ih => simp [byteLen, ih]; omega

theorem byteDrop_append (l r : List Char) :
    byteDrop (l ++ r) (byteLen l) = some r := by
  induction l with
  | nil =>
    rw [byteLen, byteDrop.eq_def, if_pos rfl]
    simp
  | cons c rest ih =>
    have hw := utf8Len_pos c
    have hne : utf8Len c + byteLen rest ≠ 0 := by omega
    simp only [List.cons_append, byteDrop, byteLen, hne, if_false]
    rw [if_pos (by omega)]
    have : utf8Len c + byteLen rest - utf8Len c = byteLen rest := by omega
    rw [this]
    exact ih

theorem byteTake_append (l r : List Char) :
    byteTake (l ++ r) (byteLen l) = some l := by
  induction l with
  | nil => rw [byteLen, byteTake.eq_def, if_pos rfl]
  | cons c rest ih =>
    have hw := utf8Len_pos c
    have hne : utf8Len c + byteLen rest ≠ 0 := by omega
    simp only [List.cons_append, byteTake, byteLen, hne, if_false]
    rw [if_pos (by omega)]
    have : utf8Len c + byteLen rest - utf8Len c = byteLen rest := by omega
    rw [this, show rest.append r = rest ++ r from rfl, ih]
    rfl

/-- The number of leading Regional Indicators of a (reversed) character
list: the quantity rule GB12/GB13 is decided by. -/
def riRun (gcat : Char → GraphemeCat) (l : List Char) : Nat :=
  ((l.reverse).takeWhile (fun c => decide (gcat c = .GC_Regional_Indicator))).length

theorem handleRegionalGo_spec (gcat : Char → GraphemeCat) :
    ∀ (xs : List Char) (k : Nat),
      handleRegionalGo gcat k xs =
        (k + (xs.takeWhile (fun c => decide (gcat c = .GC_Regional_Indicator))).length,
         !(xs.all (fun c => decide (gcat c = .GC_Regional_Indicator)))) := by
  intro xs
  induction xs with
  | nil => intro k; simp [handleRegionalGo]
  | cons c rest ih =>
    intro k
    by_cases hc : gcat c = .GC_Regional_Indicator
    · simp [handleRegionalGo, hc, ih, List.takeWhile_cons, List.all_cons]
      omega
    · simp [handleRegionalGo, hc, List.takeWhile_cons, List.all_cons]

theorem handle_regional_zero_state (gcat : Char → GraphemeCat)
    (c : GraphemeCursor) (l : List Char) (h : c.ris_count = none) :
    (c.handle_regional gcat l 0).state =
      (if (l.reverse.takeWhile
            (fun ch => decide (gcat ch = .GC_Regional_Indicator))).length % 2 = 0
       then .Break else .NotBreak) ∧
    (c.handle_regional gcat l 0).pre_context_offset = c.pre_context_offset := by
  unfold GraphemeCursor.handle_regional
  rw [handleRegionalGo_spec, h]
  simp only [Option.getD_none, Nat.zero_add]
  split
  · constructor <;> simp [GraphemeCursor.decide]
  · constructor <;> simp [GraphemeCursor.decide]

set_option maxHeartbeats 2000000 in
theorem cursor_ri_parity (gcat : Char → GraphemeCat) (ext : Bool)
    (l0 r0 : List Char) (cb ca : Char)
    (hb : gcat cb = .GC_Regional_Indicator)
    (ha : gcat ca = .GC_Regional_Indicator) :
    (GraphemeCursor.is_boundary gcat
        (GraphemeCursor.new (byteLen (l0 ++ [cb]))
          (byteLen ((l0 ++ [cb]) ++ ca :: r0)) ext)
        ((l0 ++ [cb]) ++ ca :: r0) 0).fst
      = .ok (decide (riRun gcat (l0 ++ [cb]) % 2 = 0)) := by
  have hwcb := utf8Len_pos cb
  have hwca := utf8Len_pos ca
  have hlpos : 0 < byteLen (l0 ++ [cb]) := by
    rw [byteLen_append]; simp [byteLen]; omega
  have hslen : byteLen (l0 ++ [cb]) < byteLen ((l0 ++ [cb]) ++ ca :: r0) := by
    rw [byteLen_append (l0 ++ [cb]) (ca :: r0)]
    simp [byteLen]
    omega
  have hnots : ¬ (byteLen (l0 ++ [cb]) = 0 ∨
      byteLen (l0 ++ [cb]) = byteLen ((l0 ++ [cb]) ++ ca :: r0)) := by omega
  rw [GraphemeCursor.new]
  rw [if_neg hnots]
  rw [GraphemeCursor.is_boundary]
  rw [if_neg (by simp)]
  rw [if_neg (by simp)]
  rw [if_neg (by push_neg; exact ⟨Nat.zero_le _, by simpa using hslen⟩)]
  simp only [Nat.sub_zero, byteDrop_append, hb, ha, byteTake_append,
    List.getLast?_concat]
  rw [if_neg (by simpa using hlpos.ne.symm)]
  simp only [checkPair]
  obtain ⟨hst, hpre⟩ := handle_regional_zero_state gcat
    ⟨byteLen (l0 ++ [cb]), byteLen ((l0 ++ [cb]) ++ ca :: r0), ext, .Unknown,
      some .GC_Regional_Indicator, some .GC_Regional_Indicator, none, none⟩
    (l0 ++ [cb]) rfl
  rw [GraphemeCursor.is_boundary_result]
  by_cases hpar : (List.takeWhile
      (fun ch => decide (gcat ch = .GC_Regional_Indicator))
      (l0 ++ [cb]).reverse).length % 2 = 0
  · rw [if_pos (by rw [hst, if_pos hpar])]
    rw [riRun]
    rw [decide_eq_true hpar]
  · rw [if_neg (by rw [hst, if_neg hpar]; simp)]
    rw [if_pos (by rw [hst, if_neg hpar])]
    rw [riRun]
    rw [decide_eq_false hpar]

set_option maxHeartbeats 2000000 in
theorem riSixClusters (gcat : Char → GraphemeCat) (ext : Bool)
    (c1 c2 c3 c4 c5 c6 : Char)
    (h1 : gcat c1 = .GC_Regional_Indicator) (h2 : gcat c2 = .GC_Regional_Indicator)
    (h3 : gcat c3 = .GC_Regional_Indicator) (h4 : gcat c4 = .GC_Regional_Indicator)
    (h5 : gcat c5 = .GC_Regional_Indicator) (h6 : gcat c6 = .GC_Regional_Indicator)
    (hn1 : c1 ≠ '\r') (hn3 : c3 ≠ '\r') (hn5 : c5 ≠ '\r') :
    graphemesClusters gcat 7 (new_graphemes [c1, c2, c3, c4, c5, c6] ext) =
      [[c1, c2], [c3, c4], [c5, c6]] := by
  simp [graphemesClusters, Graphemes.next, new_graphemes, gFwdGo,
    h1, h2, h3, h4, h5, h6, hn1, hn3, hn5]

set_option maxHeartbeats 2000000 in
theorem riSevenClusters (gcat : Char → GraphemeCat) (ext : Bool)
    (c1 c2 c3 c4 c5 c6 c7 : Char)
    (h1 : gcat c1 = .GC_Regional_Indicator) (h2 : gcat c2 = .GC_Regional_Indicator)
    (h3 : gcat c3 = .GC_Regional_Indicator) (h4 : gcat c4 = .GC_Regional_Indicator)
    (h5 : gcat c5 = .GC_Regional_Indicator) (h6 : gcat c6 = .GC_Regional_Indicator)
    (h7 : gcat c7 = .GC_Regional_Indicator)
    (hn1 : c1 ≠ '\r') (hn3 : c3 ≠ '\r') (hn5 : c5 ≠ '\r') (hn7 : c7 ≠ '\r') :
    graphemesClusters gcat 8 (new_graphemes [c1, c2, c3, c4, c5, c6, c7] ext) =
      [[c1, c2], [c3, c4], [c5, c6], [c7]] := by
  simp [graphemesClusters, Graphemes.next, new_graphemes, gFwdGo,
    h1, h2, h3, h4, h5, h6, h7, hn1, hn3, hn5, hn7]

/-- C8: at a position between two adjacent Regional_Indicator code points
(cursor form: fresh cursor on the whole text as one chunk), `is_boundary`
decides "break" exactly when the number of consecutive Regional Indicators
immediately preceding the position is even; and the whole-text iterator
splits six Regional Indicators into three two-RI flag clusters and seven
into three flag clusters plus a lone trailing one. -/
theorem C8_regional_indicator_parity (gcat : Char → GraphemeCat) (ext : Bool)
    (l0 r0 : List Char) (cb ca c1 c2 c3 c4 c5 c6 c7 : Char)
    (hb : gcat cb = .GC_Regional_Indicator)
    (ha : gcat ca = .GC_Regional_Indicator)
    (h1 : gcat c1 = .GC_Regional_Indicator) (h2 : gcat c2 = .GC_Regional_Indicator)
    (h3 : gcat c3 = .GC_Regional_Indicator) (h4 : gcat c4 = .GC_Regional_Indicator)
    (h5 : gcat c5 = .GC_Regional_Indicator) (h6 : gcat c6 = .GC_Regional_Indicator)
    (h7 : gcat c7 = .GC_Regional_Indicator)
    (hn1 : c1 ≠ '\r') (hn3 : c3 ≠ '\r') (hn5 : c5 ≠ '\r') (hn7 : c7 ≠ '\r') :
    (GraphemeCursor.is_boundary gcat
        (GraphemeCursor.new (byteLen (l0 ++ [cb]))
          (byteLen ((l0 ++ [cb]) ++ ca :: r0)) ext)
        ((l0 ++ [cb]) ++ ca :: r0) 0).fst
      = .ok (decide (riRun gcat (l0 ++ [cb]) % 2 = 0)) ∧
    graphemesClusters gcat 7 (new_graphemes [c1, c2, c3, c4, c5, c6] ext) =
      [[c1, c2], [c3, c4], [c5, c6]] ∧
    graphemesClusters gcat 8 (new_graphemes [c1, c2, c3, c4, c5, c6, c7] ext) =
      [[c1, c2], [c3, c4], [c5, c6], [c7]] :=
  ⟨cursor_ri_parity gcat ext l0 r0 cb ca hb ha,
   riSixClusters gcat ext c1 c2 c3 c4 c5 c6 h1 h2 h3 h4 h5 h6 hn1 hn3 hn5,
   riSevenClusters gcat ext c1 c2 c3 c4 c5 c6 c7 h1 h2 h3 h4 h5 h6 h7 hn1 hn3 hn5 hn7⟩

/-- Witness for C8 at the concrete one-chunk text "RR" (both Regional
Indicators under the sample categories) and the six/seven-RI texts. -/
theorem C8_witness :
    (GraphemeCursor.is_boundary demoGcat
        (GraphemeCursor.new (byteLen ([] ++ ['R']))
          (byteLen (([] ++ ['R']) ++ 'R' :: []))
          true)
        (([] ++ ['R']) ++ 'R' :: []) 0).fst
      = .ok (decide (riRun demoGcat ([] ++ ['R']) % 2 = 0)) ∧
    graphemesClusters demoGcat 7 (new_graphemes ['R', 'R', 'R', 'R', 'R', 'R'] true) =
      [['R', 'R'], ['R', 'R'], ['R', 'R']] ∧
    graphemesClusters demoGcat 8 (new_graphemes ['R', 'R', 'R', 'R', 'R', 'R', 'R'] true) =
      [['R', 'R'], ['R', 'R'], ['R', 'R'], ['R']] :=
  C8_regional_indicator_parity demoGcat true [] [] 'R' 'R' 'R' 'R' 'R' 'R' 'R' 'R' 'R'
    (by decide) (by decide) (by decide) (by decide) (by decide) (by decide)
    (by decide) (by decide) (by decide) (by decide) (by decide) (by decide) (by decide)
